import Mathlib

/-!
Verification of the extraction-to-layout pipeline of `PDF.py`.

The Python source is shallowly embedded: every pure data transformation of
the pipeline (table parsing, separator-row removal, column normalization,
line classification, image scaling, the layout loop, the extraction loop)
is translated into an executable Lean definition, with Python exceptions
modelled by `Except` and Python floats modelled by `ℚ`.
-/

namespace TsAI

/-- Python str.strip() on a list of characters: drop whitespace from both
ends.  The inputs handled by the pipeline are ordinary text lines, for which
the core whitespace class coincides with Python's. -/
def trim_chars (cs : List Char) : List Char :=
  ((cs.dropWhile Char.isWhitespace).reverse.dropWhile Char.isWhitespace).reverse

/-- Python line.strip() on a String. -/
def pyStrip (s : String) : String :=
  ⟨trim_chars s.data⟩

/-- Python line.strip of the pipe character, as used in parse_markdown_table:
remove every leading and trailing pipe. -/
def strip_pipes_chars (cs : List Char) : List Char :=
  ((cs.dropWhile (fun c => c == '|')).reverse.dropWhile (fun c => c == '|')).reverse

/-- Python s.split(sep) for a one-character separator: n separators give
n+1 (possibly empty) pieces; the empty string gives one empty piece. -/
def split_on_char (sep : Char) : List Char → List (List Char)
  | [] => [[]]
  | c :: cs =>
    match split_on_char sep cs with
    | [] => [[]]
    | w :: ws => if c == sep then [] :: w :: ws else (c :: w) :: ws

/-- Python s.startswith(pat), character by character. -/
def begins_with : List Char → List Char → Bool
  | [], _ => true
  | _ :: _, [] => false
  | p :: ps, c :: cs => p == c && begins_with ps cs

/-- Python line.startswith(pat) on Strings. -/
def pyStartsWith (pat s : String) : Bool :=
  begins_with pat.data s.data

/-- Fuel-indexed worker for Python s.replace(pat, empty string): scan left to
right, deleting each non-overlapping occurrence of pat.  The fuel is the
length of the scanned text, which suffices for any non-empty pattern. -/
def replace_del_chars (pat : List Char) : Nat → List Char → List Char
  | 0, s => s
  | _, [] => []
  | fuel + 1, c :: cs =>
    if begins_with pat (c :: cs) then replace_del_chars pat fuel ((c :: cs).drop pat.length)
    else c :: replace_del_chars pat fuel cs

/-- Python s.replace(pat, empty string) on Strings. -/
def pyReplaceDel (pat s : String) : String :=
  ⟨replace_del_chars pat.data s.data.length s.data⟩

/-- One raw table line split into trimmed cells, as in parse_markdown_table:
row = [cell.strip() for cell in line.strip(pipe).split(pipe)]. -/
def parse_row (line : String) : List String :=
  (split_on_char '|' (strip_pipes_chars line.data)).map (fun cell => (⟨trim_chars cell⟩ : String))

/-- PDF.py parse_markdown_table: split every buffered line into cells and
keep the rows that have at least one cell (split always yields at least
one, so no row is discarded, mirroring the source's redundant check). -/
def parse_markdown_table (markdown_lines : List String) : List (List String) :=
  markdown_lines.filterMap (fun line =>
    let row := parse_row line
    if row.length > 0 then some row else none)

/-- Separator-row test of create_paragraph_table: the row is non-empty and
the concatenation of its cells uses only dash, colon and space characters
(Python set-inclusion of the joined cells in that three-character set). -/
def is_separator_row (row : List String) : Bool :=
  decide (row.length > 0) &&
    ((row.map String.data).flatten.all (fun c => c == '-' || c == ':' || c == ' '))

/-- Normalized table data: the padded rows and the column count. -/
structure TableBlock where
  rows : List (List String)
  column_count : Nat
  deriving DecidableEq

/-- Result of table finalization: the normalized data plus whether the whole
table is wrapped as one non-splittable unit (Python KeepTogether). -/
structure RenderedTable where
  block : TableBlock
  keepTogether : Bool
  deriving DecidableEq

/-- The rows kept after separator-row removal in create_paragraph_table. -/
def clean_rows (raw_data_lines : List String) : List (List String) :=
  (parse_markdown_table raw_data_lines).filter (fun row => !(is_separator_row row))

/-- max(len(row) for row in rows), computed as a left fold from 0. -/
def max_cols_of (rows : List (List String)) : Nat :=
  rows.foldl (fun m row => max m row.length) 0

/-- PDF.py create_paragraph_table (data part): None on an empty buffer or
when separator-row removal leaves nothing; otherwise right-pad every row
with empty cells to the maximum cell count, and wrap the table as
non-splittable exactly when the kept rows number fewer than 30. -/
def create_paragraph_table (raw_data_lines : List String) : Option RenderedTable :=
  if raw_data_lines.isEmpty then none
  else if (clean_rows raw_data_lines).isEmpty then none
  else some
    { block :=
        { rows := (clean_rows raw_data_lines).map
            (fun row => row ++ List.replicate (max_cols_of (clean_rows raw_data_lines) - row.length) ""),
          column_count := max_cols_of (clean_rows raw_data_lines) },
      keepTogether := decide ((clean_rows raw_data_lines).length < 30) }

/- ## Helper lemmas about the column-count fold -/

theorem foldl_max_init_le (rows : List (List String)) :
    ∀ a : Nat, a ≤ rows.foldl (fun m row => max m row.length) a := by
  induction rows with
  | nil => intro a; exact Nat.le_refl a
  | cons hd tl ih =>
    intro a
    rw [List.foldl_cons]
    exact le_trans (Nat.le_max_left a hd.length) (ih (max a hd.length))

theorem length_le_foldl_max (rows : List (List String)) :
    ∀ (a : Nat) (r : List String), r ∈ rows →
      r.length ≤ rows.foldl (fun m row => max m row.length) a := by
  induction rows with
  | nil => intro a r hr; cases hr
  | cons hd tl ih =>
    intro a r hr
    rw [List.foldl_cons]
    cases hr with
    | head => exact le_trans (Nat.le_max_right a hd.length) (foldl_max_init_le tl _)
    | tail _ hmem => exact ih _ r hmem

theorem foldl_max_attained (rows : List (List String)) :
    ∀ a : Nat, rows.foldl (fun m row => max m row.length) a = a ∨
      ∃ r, r ∈ rows ∧ rows.foldl (fun m row => max m row.length) a = r.length := by
  induction rows with
  | nil => intro a; exact Or.inl rfl
  | cons hd tl ih =>
    intro a
    rw [List.foldl_cons]
    rcases ih (max a hd.length) with h | ⟨r, hr, hEq⟩
    · rcases max_choice a hd.length with hm | hm
      · exact Or.inl (by rw [h, hm])
      · exact Or.inr ⟨hd, List.Mem.head _, by rw [h, hm]⟩
    · exact Or.inr ⟨r, List.Mem.tail _ hr, hEq⟩

theorem pad_row_length (row : List String) (m : Nat) (h : row.length ≤ m) :
    (row ++ List.replicate (m - row.length) "").length = m := by
  rw [List.length_append, List.length_replicate]
  omega

/-- C1: after separator rows are removed, every row of the emitted table is
right-padded to exactly column_count cells, column_count being the maximum
cell count among the remaining rows; the example buffer with rows A,B and
1,2 and a dash separator yields those two rows with column_count 2. -/
theorem c1_table_normalization :
    (∀ (lines : List String) (t : RenderedTable), create_paragraph_table lines = some t →
      (∀ row ∈ t.block.rows, row.length = t.block.column_count) ∧
      (∀ row ∈ clean_rows lines, row.length ≤ t.block.column_count) ∧
      (∃ row, row ∈ clean_rows lines ∧ row.length = t.block.column_count)) ∧
    create_paragraph_table ["| A | B |", "|---|---|", "| 1 | 2 |"] =
      some ⟨⟨[["A", "B"], ["1", "2"]], 2⟩, true⟩ := by
  constructor
  · intro lines t h
    unfold create_paragraph_table at h
    by_cases h1 : lines.isEmpty
    · rw [if_pos h1] at h; cases h
    rw [if_neg h1] at h
    by_cases h2 : (clean_rows lines).isEmpty
    · rw [if_pos h2] at h; cases h
    rw [if_neg h2] at h
    have ht := (Option.some.inj h).symm
    subst ht
    refine ⟨?_, ?_, ?_⟩
    · intro row hrow
      rcases List.mem_map.mp hrow with ⟨r, hrmem, hpad⟩
      rw [← hpad]
      exact pad_row_length r _ (length_le_foldl_max _ 0 r hrmem)
    · intro row hrow
      exact length_le_foldl_max _ 0 row hrow
    · rcases foldl_max_attained (clean_rows lines) 0 with hz | ⟨r, hr, hEq⟩
      · have hne : clean_rows lines ≠ [] := by
          intro hnil; rw [hnil] at h2; exact h2 rfl
        rcases List.exists_mem_of_ne_nil _ hne with ⟨r0, hr0⟩
        refine ⟨r0, hr0, ?_⟩
        have hle := length_le_foldl_max (clean_rows lines) 0 r0 hr0
        show r0.length = max_cols_of (clean_rows lines)
        unfold max_cols_of
        omega
      · exact ⟨r, hr, hEq.symm⟩
  · decide

theorem c1_table_normalization_witness :
    create_paragraph_table ["| A | B |", "|---|---|", "| 1 | 2 |"] =
      some ⟨⟨[["A", "B"], ["1", "2"]], 2⟩, true⟩ ∧
    (["A", "B"] : List String).length = 2 := by
  refine ⟨c1_table_normalization.2, ?_⟩
  have h := c1_table_normalization.1 ["| A | B |", "|---|---|", "| 1 | 2 |"]
    ⟨⟨[["A", "B"], ["1", "2"]], 2⟩, true⟩ (by decide)
  exact h.1 ["A", "B"] (by decide)

/-- C2 counterexample: a table of one header row plus 29 data rows (30 kept
rows) is NOT wrapped as a non-splittable unit, because the source compares
the total kept-row count, header included, against 30. -/
theorem c2_counterexample :
    (create_paragraph_table ("|h|" :: List.replicate 29 "|d|")).map
        (fun t => t.keepTogether) = some false ∧
    (create_paragraph_table ("|h|" :: List.replicate 29 "|d|")).map
        (fun t => t.block.rows.length) = some 30 := by decide

/-- C2 (amended): a finalized table is wrapped as one non-splittable unit iff
its total kept-row count (header included) is under 30, i.e. iff it has at
most 28 data rows; 28 data rows give a non-splittable table. -/
theorem c2_keep_together_rule :
    (∀ (lines : List String) (t : RenderedTable), create_paragraph_table lines = some t →
      (t.keepTogether = true ↔ t.block.rows.length < 30)) ∧
    (create_paragraph_table ("|h|" :: List.replicate 28 "|d|")).map
        (fun t => t.keepTogether) = some true := by
  constructor
  · intro lines t h
    unfold create_paragraph_table at h
    by_cases h1 : lines.isEmpty
    · rw [if_pos h1] at h; cases h
    rw [if_neg h1] at h
    by_cases h2 : (clean_rows lines).isEmpty
    · rw [if_pos h2] at h; cases h
    rw [if_neg h2] at h
    have ht := (Option.some.inj h).symm
    subst ht
    simp only [List.length_map, decide_eq_true_eq]
  · decide

theorem c2_keep_together_rule_witness :
    create_paragraph_table ("|h|" :: List.replicate 28 "|d|") =
      some ⟨⟨["h"] :: List.replicate 28 ["d"], 1⟩, true⟩ ∧
    (true = true ↔ ((["h"] :: List.replicate 28 ["d"]).length < 30)) := by
  refine ⟨by decide, ?_⟩
  have h := c2_keep_together_rule.1 ("|h|" :: List.replicate 28 "|d|")
    ⟨⟨["h"] :: List.replicate 28 ["d"], 1⟩, true⟩ (by decide)
  exact h

theorem join_data_nil :
    ∀ row : List String, (∀ c ∈ row, c = "") → (row.map String.data).flatten = [] := by
  intro row
  induction row with
  | nil => intro _; rfl
  | cons hd tl ih =>
    intro hall
    have hhd : hd = "" := hall hd (List.Mem.head _)
    have htl := ih (fun c hc => hall c (List.Mem.tail _ hc))
    simp [hhd, htl]

/-- C10: a parsed row whose cells are all empty is classified as a separator
row (the concatenation of its cells is empty, hence inside the allowed
character set), so a buffer made only of bare pipe lines yields no table. -/
theorem c10_blank_rows_dropped :
    (∀ row : List String, row ≠ [] → (∀ c ∈ row, c = "") → is_separator_row row = true) ∧
    create_paragraph_table ["|", "| |", "|||"] = none := by
  constructor
  · intro row hne hall
    unfold is_separator_row
    rw [join_data_nil row hall]
    simp [List.length_pos, hne]
  · decide

theorem c10_blank_rows_dropped_witness :
    is_separator_row [""] = true := by
  exact c10_blank_rows_dropped.1 [""] (by decide) (by decide)

/- ## Image extraction (extract_content_from_pdf) -/

/-- The image cap of PDF.py (MAX_IMAGES = 50). -/
def MAX_IMAGES : Nat := 50

/-- An embedded image as the extraction loop sees it: its byte size, and
whether the per-image processing (extraction plus the captioning call inside
the try block) succeeds; a failure there is caught and the image dropped. -/
structure RawImage where
  size : Nat
  caption_ok : Bool
  deriving DecidableEq

/-- Images of one page that survive the inner loop: size at least the
5000-byte threshold (Python: continue when len(image_bytes) < 5000) and
successful captioning.  The inner loop has no cap check. -/
def page_accepted (page : List RawImage) : List RawImage :=
  page.filter (fun img => !(decide (img.size < 5000)) && img.caption_ok)

/-- The per-page loop of extract_content_from_pdf: at the top of each page
iteration, break when img_count has reached MAX_IMAGES; otherwise accept
every qualifying image of the page and add their number to the count. -/
def extract_images_from : List (List RawImage) → Nat → List RawImage
  | [], _ => []
  | page :: rest, img_count =>
    if MAX_IMAGES ≤ img_count then []
    else page_accepted page ++ extract_images_from rest (img_count + (page_accepted page).length)

/-- PDF.py extract_content_from_pdf, image part: run the page loop with a
zero initial count.  The result lists the accepted images in acceptance
order (the order of the returned label-to-image map). -/
def extract_content_from_pdf (pages : List (List RawImage)) : List RawImage :=
  extract_images_from pages 0

theorem extract_all_sizes_ge (pages : List (List RawImage)) :
    ∀ (c : Nat) (img : RawImage), img ∈ extract_images_from pages c →
      5000 ≤ img.size ∧ img.caption_ok = true := by
  induction pages with
  | nil => intro c img h; cases h
  | cons page rest ih =>
    intro c img h
    unfold extract_images_from at h
    by_cases hc : MAX_IMAGES ≤ c
    · rw [if_pos hc] at h; cases h
    · rw [if_neg hc] at h
      rcases List.mem_append.mp h with h1 | h2
      · unfold page_accepted at h1
        have hf := (List.mem_filter.mp h1).2
        rw [Bool.and_eq_true] at hf
        rcases hf with ⟨hsz, hcap⟩
        refine ⟨?_, hcap⟩
        have hd : decide (img.size < 5000) = false := by simpa using hsz
        have := of_decide_eq_false hd
        omega
      · exact ih _ img h2

theorem extract_break_empty :
    ∀ (pages : List (List RawImage)) (c : Nat), MAX_IMAGES ≤ c →
      extract_images_from pages c = [] := by
  intro pages c h
  cases pages with
  | nil => rfl
  | cons page rest => unfold extract_images_from; rw [if_pos h]

theorem extract_cap_bound (pages : List (List RawImage)) :
    ∀ (c k : Nat), c < MAX_IMAGES →
      (∀ p ∈ pages, (page_accepted p).length ≤ k) →
      c + (extract_images_from pages c).length ≤ MAX_IMAGES - 1 + k := by
  induction pages with
  | nil =>
    intro c k hc _
    unfold extract_images_from
    unfold MAX_IMAGES at hc ⊢
    simp
    omega
  | cons page rest ih =>
    intro c k hc hall
    unfold extract_images_from
    rw [if_neg (Nat.not_le_of_lt hc)]
    rw [List.length_append]
    by_cases h2 : c + (page_accepted page).length < MAX_IMAGES
    · have hrec := ih (c + (page_accepted page).length) k h2
        (fun p hp => hall p (List.Mem.tail _ hp))
      omega
    · rw [extract_break_empty rest _ (Nat.le_of_not_lt h2)]
      have hk := hall page (List.Mem.head _)
      unfold MAX_IMAGES at hc ⊢
      simp only [List.length_nil]
      omega

/-- C4 counterexample: a single page holding 51 qualifying images yields 51
accepted images, because the cap is only checked between pages; so the
returned map is not bounded by 50 and acceptance does not stop the moment
the cap is reached. -/
theorem c4_counterexample :
    (extract_content_from_pdf [List.replicate 51 { size := 5000, caption_ok := true }]).length
      = 51 := by decide

/-- C4 (amended): every accepted image has byte size at least 5000 (and a
successful caption); the cap is enforced only at page boundaries — once the
count reaches MAX_IMAGES no further page is scanned, and if every page
contributes at most k accepted images the final count is at most
MAX_IMAGES - 1 + k (in particular at most 50 when pages hold at most one
qualifying image each), but a single page may push the count past 50. -/
theorem c4_image_cap_and_threshold :
    (∀ (pages : List (List RawImage)) (img : RawImage),
      img ∈ extract_content_from_pdf pages → 5000 ≤ img.size ∧ img.caption_ok = true) ∧
    (∀ (pages : List (List RawImage)) (c : Nat), MAX_IMAGES ≤ c →
      extract_images_from pages c = []) ∧
    (∀ (pages : List (List RawImage)) (k : Nat),
      (∀ p ∈ pages, (page_accepted p).length ≤ k) →
      (extract_content_from_pdf pages).length ≤ MAX_IMAGES - 1 + k) := by
  refine ⟨fun pages img h => extract_all_sizes_ge pages 0 img h, extract_break_empty, ?_⟩
  intro pages k hall
  have h := extract_cap_bound pages 0 k (by decide) hall
  unfold extract_content_from_pdf
  omega

theorem c4_image_cap_and_threshold_witness :
    (5000 ≤ (5200 : Nat) ∧ true = true) ∧
    extract_images_from [[{ size := 5200, caption_ok := true }]] 50 = [] ∧
    (extract_content_from_pdf [[{ size := 5200, caption_ok := true }]]).length
      ≤ MAX_IMAGES - 1 + 1 := by
  refine ⟨?_, ?_, ?_⟩
  · exact c4_image_cap_and_threshold.1 [[{ size := 5200, caption_ok := true }]]
      { size := 5200, caption_ok := true } (by decide)
  · exact c4_image_cap_and_threshold.2.1 [[{ size := 5200, caption_ok := true }]] 50 (by decide)
  · exact c4_image_cap_and_threshold.2.2 [[{ size := 5200, caption_ok := true }]] 1 (by decide)

/- ## Layout engine (save_to_pdf) -/

/-- reportlab length units as exact rationals (cm = 72/2.54 points). -/
def cm : ℚ := 3600 / 127

/-- reportlab mm. -/
def mm : ℚ := cm / 10

/-- Width of an A4 page: 210 mm. -/
def a4_width : ℚ := 210 * mm

/-- The 2 cm page margin of save_to_pdf. -/
def margin : ℚ := 2 * cm

/-- available_width = A4 width minus twice the margin. -/
def available_width : ℚ := a4_width - 2 * margin

/-- Display dimensions of an image. -/
structure Dims where
  w : ℚ
  h : ℚ
  deriving DecidableEq

/-- The image sizing of save_to_pdf: with aspect = img_h / img_w computed
from the original dimensions, first clamp the width to max_w (rescaling the
height by the aspect ratio), then re-check the resulting height against
max_h and, if still too tall, clamp the height and recompute the width. -/
def scale_image (img_w img_h max_w max_h : ℚ) : Dims :=
  if img_w > max_w then
    (if max_w * (img_h / img_w) > max_h then ⟨max_h / (img_h / img_w), max_h⟩
     else ⟨max_w, max_w * (img_h / img_w)⟩)
  else
    (if img_h > max_h then ⟨max_h / (img_h / img_w), max_h⟩ else ⟨img_w, img_h⟩)

/-- One entry of the image_data_dict built by extraction: the image file's
pixel dimensions, its caption, and whether loading/drawing the file succeeds
(the try block around PDFImage; a failure there is caught and the image
reference skipped). -/
structure ImgInfo where
  width : ℚ
  height : ℚ
  caption : String
  load_ok : Bool
  deriving DecidableEq

/-- One element appended to the reportlab story by save_to_pdf.  Grouped
flowables (the level-1 heading group, the image-plus-caption group, a small
table in KeepTogether) count as a single story element, exactly as in the
source, because the page-break policy compares len(story). -/
inductive LayoutUnit where
  | para (text : String)
  | rule
  | spacer
  | pageBreak
  | headingGroup (text : String)
  | h2 (text : String)
  | h3 (text : String)
  | h4bold (text : String)
  | bullet (text : String)
  | tableUnit (t : RenderedTable)
  | imageUnit (label : String) (dims : Dims)
  deriving DecidableEq

/-- The mutable state of the line loop in save_to_pdf. -/
structure LayoutState where
  story : List LayoutUnit
  table_buffer : List String
  in_table : Bool
  deriving DecidableEq

/-- Table finalization as the layout loop calls it; Except models a Python
exception escaping create_paragraph_table (the loop installs no handler
around it). -/
def TableRenderer : Type :=
  List String → Except String (Option RenderedTable)

/-- The actual pipeline's table renderer: the embedded
create_paragraph_table, which never throws. -/
def tblReal : TableRenderer :=
  fun b => Except.ok (create_paragraph_table b)

/-- Locate the first occurrence of two consecutive closing brackets,
returning the text before it and the text after it.  This mirrors where the
lazy group of the image-tag pattern of save_to_pdf ends. -/
def split_at_close : List Char → Option (List Char × List Char)
  | [] => none
  | [_] => none
  | a :: b :: rest =>
    if a == ']' && b == ']' then some ([], rest)
    else
      match split_at_close (b :: rest) with
      | some (pre, post) => some (a :: pre, post)
      | none => none

/-- The image-tag match of save_to_pdf: re.match anchors the pattern
double-open-bracket IMG colon at the START of the line only, the lazy group
runs to the first double-close-bracket, and the looked-up key is the group
stripped of surrounding whitespace with all spaces removed.  Text after the
closing brackets does not prevent the match; text before it does. -/
def img_label_key (line : String) : Option String :=
  if pyStartsWith "[[IMG:" line then
    match split_at_close (line.data.drop 6) with
    | some (pre, _) => some ⟨(trim_chars pre).filter (fun c => !(c == ' '))⟩
    | none => none
  else none

/-- Heading text of a level-1 line: line.replace of the hash-space token by
the empty string, then strip. -/
def h1_text (line : String) : String := pyStrip (pyReplaceDel "# " line)

/-- Heading text of a level-2 line. -/
def h2_text (line : String) : String := pyStrip (pyReplaceDel "## " line)

/-- Heading text of a level-3 line. -/
def h3_text (line : String) : String := pyStrip (pyReplaceDel "### " line)

/-- Text of a level-4 line, rendered as bold body text. -/
def h4_text (line : String) : String := pyStrip (pyReplaceDel "#### " line)

/-- Classification of one trimmed, non-empty, non-table line of save_to_pdf,
in source order: image tag first (missing label or failed load appends
nothing), then the four heading prefixes, then bullets, else a paragraph.
A level-1 heading first appends a PageBreak when the story already holds
more than 5 elements, then its non-splittable group. -/
def process_normal (imgs : List (String × ImgInfo)) (st : LayoutState) (line : String) :
    LayoutState :=
  match img_label_key line with
  | some label_key =>
    match List.lookup label_key imgs with
    | some info =>
      if info.load_ok then
        { st with story := st.story ++
            [LayoutUnit.imageUnit label_key
              (scale_image info.width info.height available_width (10 * cm))] }
      else st
    | none => st
  | none =>
    if pyStartsWith "# " line then
      let st1 := if st.story.length > 5 then { st with story := st.story ++ [LayoutUnit.pageBreak] }
                 else st
      { st1 with story := st1.story ++ [LayoutUnit.headingGroup (h1_text line)] }
    else if pyStartsWith "## " line then
      { st with story := st.story ++ [LayoutUnit.h2 (h2_text line)] }
    else if pyStartsWith "### " line then
      { st with story := st.story ++ [LayoutUnit.h3 (h3_text line)] }
    else if pyStartsWith "#### " line then
      { st with story := st.story ++ [LayoutUnit.h4bold (h4_text line)] }
    else if pyStartsWith "- " line || pyStartsWith "* " line then
      { st with story := st.story ++ [LayoutUnit.bullet ⟨line.data.drop 2⟩] }
    else
      { st with story := st.story ++ [LayoutUnit.para line] }

/-- The table flush of the loop: when in_table, finalize the buffer (an
escaping exception propagates), append spacer, table, spacer when a table
came back, and reset the buffer and the flag. -/
def flush_table (tbl : TableRenderer) (st : LayoutState) : Except String LayoutState :=
  if st.in_table then
    match tbl st.table_buffer with
    | Except.error e => Except.error e
    | Except.ok (some t) =>
      Except.ok { story := st.story ++ [LayoutUnit.spacer, LayoutUnit.tableUnit t, LayoutUnit.spacer],
                  table_buffer := [], in_table := false }
    | Except.ok none =>
      Except.ok { story := st.story, table_buffer := [], in_table := false }
  else Except.ok st

/-- The flush as performed with the never-throwing real renderer. -/
def flush_pure (st : LayoutState) : LayoutState :=
  if st.in_table then
    match create_paragraph_table st.table_buffer with
    | some t =>
      { story := st.story ++ [LayoutUnit.spacer, LayoutUnit.tableUnit t, LayoutUnit.spacer],
        table_buffer := [], in_table := false }
    | none => { story := st.story, table_buffer := [], in_table := false }
  else st

/-- One iteration of the line loop of save_to_pdf: strip the line; a line
starting with a pipe is buffered; otherwise a pending table is flushed,
an empty line is skipped, and any other line is classified. -/
def process_line (tbl : TableRenderer) (imgs : List (String × ImgInfo)) (st : LayoutState)
    (raw : String) : Except String LayoutState :=
  let line := pyStrip raw
  if pyStartsWith "|" line then
    Except.ok { st with in_table := true, table_buffer := st.table_buffer ++ [line] }
  else
    match flush_table tbl st with
    | Except.error e => Except.error e
    | Except.ok st1 =>
      if line.data.isEmpty then Except.ok st1
      else Except.ok (process_normal imgs st1 line)

/-- The whole line loop. -/
def process_lines (tbl : TableRenderer) (imgs : List (String × ImgInfo)) :
    LayoutState → List String → Except String LayoutState
  | st, [] => Except.ok st
  | st, l :: ls =>
    match process_line tbl imgs st l with
    | Except.error e => Except.error e
    | Except.ok st1 => process_lines tbl imgs st1 ls

/-- The three story elements placed before the loop: the title paragraph,
the horizontal rule drawing and a spacer. -/
def initial_story (stem : String) : List LayoutUnit :=
  [LayoutUnit.para (stem ++ " 要約・解説 レポート"), LayoutUnit.rule, LayoutUnit.spacer]

/-- save_to_pdf up to the finished story: run the loop over the markdown
lines starting from the title preamble, then flush a still-open table
buffer at end of input (appending the bare table, without spacers). -/
def save_story (tbl : TableRenderer) (imgs : List (String × ImgInfo)) (stem : String)
    (lines : List String) : Except String (List LayoutUnit) :=
  match process_lines tbl imgs { story := initial_story stem, table_buffer := [], in_table := false } lines with
  | Except.error e => Except.error e
  | Except.ok st =>
    if st.in_table && !st.table_buffer.isEmpty then
      match tbl st.table_buffer with
      | Except.error e => Except.error e
      | Except.ok (some t) => Except.ok (st.story ++ [LayoutUnit.tableUnit t])
      | Except.ok none => Except.ok st.story
    else Except.ok st.story

/-- save_to_pdf: build the story, then attempt final serialization
(doc.build) under the try handler, returning True on success and False on a
caught build error; an exception escaping the layout loop itself is not
caught here and propagates to the caller. -/
def save_to_pdf (tbl : TableRenderer) (buildFn : List LayoutUnit → Except String Unit)
    (imgs : List (String × ImgInfo)) (stem : String) (lines : List String) :
    Except String Bool :=
  match save_story tbl imgs stem lines with
  | Except.error e => Except.error e
  | Except.ok story =>
    match buildFn story with
    | Except.ok _ => Except.ok true
    | Except.error _ => Except.ok false

/-- What main does with one input file: whether the source document got
moved to the processed directory, and whether the per-document exception
handler fired. -/
structure FileOutcome where
  source_moved : Bool
  exception_caught : Bool
  deriving DecidableEq

/-- The per-file body of main: the source file is moved to the processed
directory exactly when save_to_pdf returns True; an exception anywhere in
the pipeline is caught, logged, and leaves the file in place. -/
def main_process_file (tbl : TableRenderer) (buildFn : List LayoutUnit → Except String Unit)
    (imgs : List (String × ImgInfo)) (stem : String) (lines : List String) : FileOutcome :=
  match save_to_pdf tbl buildFn imgs stem lines with
  | Except.ok true => { source_moved := true, exception_caught := false }
  | Except.ok false => { source_moved := false, exception_caught := false }
  | Except.error _ => { source_moved := false, exception_caught := true }

deriving instance DecidableEq for Except

/- ## Helper lemmas about line classification -/

theorem begins_with_cons {p : Char} {ps s : List Char}
    (hp : begins_with (p :: ps) s = true) :
    ∃ t, s = p :: t ∧ begins_with ps t = true := by
  cases s with
  | nil => simp [begins_with] at hp
  | cons c cs =>
    simp only [begins_with, Bool.and_eq_true] at hp
    rcases hp with ⟨h1, h2⟩
    have hpc : p = c := by simpa using h1
    exact ⟨cs, by rw [hpc], h2⟩

theorem begins_with_head_ne {p c : Char} {ps cs : List Char} (h : (p == c) = false) :
    begins_with (p :: ps) (c :: cs) = false := by
  simp [begins_with, h]

theorem flush_table_real (st : LayoutState) :
    flush_table tblReal st = Except.ok (flush_pure st) := by
  unfold flush_table flush_pure tblReal
  by_cases h : st.in_table = true
  · rw [if_pos h, if_pos h]
    cases create_paragraph_table st.table_buffer <;> rfl
  · rw [if_neg h, if_neg h]

theorem flush_pure_not_in_table {st : LayoutState} (h : st.in_table = false) :
    flush_pure st = st := by
  unfold flush_pure
  rw [h]
  rfl

theorem process_line_normal_case (tbl : TableRenderer) (imgs : List (String × ImgInfo))
    (st : LayoutState) (raw : String)
    (hpipe : pyStartsWith "|" (pyStrip raw) = false)
    (hne : (pyStrip raw).data.isEmpty = false) :
    process_line tbl imgs st raw =
      match flush_table tbl st with
      | Except.error e => Except.error e
      | Except.ok st1 => Except.ok (process_normal imgs st1 (pyStrip raw)) := by
  unfold process_line
  simp only [hpipe, hne, Bool.false_eq_true, if_false]

theorem process_line_real_normal (imgs : List (String × ImgInfo)) (st : LayoutState)
    (raw : String) (hpipe : pyStartsWith "|" (pyStrip raw) = false)
    (hne : (pyStrip raw).data.isEmpty = false) :
    process_line tblReal imgs st raw =
      Except.ok (process_normal imgs (flush_pure st) (pyStrip raw)) := by
  rw [process_line_normal_case tblReal imgs st raw hpipe hne, flush_table_real]

theorem data_of_h1 {l : String} (h : pyStartsWith "# " l = true) :
    ∃ t, l.data = '#' :: t := by
  unfold pyStartsWith at h
  have e1 : ("# " : String).data = ['#', ' '] := rfl
  rw [e1] at h
  rcases begins_with_cons h with ⟨t, ht, _⟩
  exact ⟨t, ht⟩

theorem data_of_img {l : String} (h : pyStartsWith "[[IMG:" l = true) :
    ∃ t, l.data = '[' :: t := by
  unfold pyStartsWith at h
  have e1 : ("[[IMG:" : String).data = ['[', '[', 'I', 'M', 'G', ':'] := rfl
  rw [e1] at h
  rcases begins_with_cons h with ⟨t, ht, _⟩
  exact ⟨t, ht⟩

theorem not_pipe_of_head {l : String} {c : Char} {t : List Char}
    (hd : l.data = c :: t) (hc : (('|' : Char) == c) = false) :
    pyStartsWith "|" l = false := by
  unfold pyStartsWith
  have e1 : ("|" : String).data = ['|'] := rfl
  rw [e1, hd]
  exact begins_with_head_ne hc

theorem not_empty_of_head {l : String} {c : Char} {t : List Char} (hd : l.data = c :: t) :
    l.data.isEmpty = false := by
  rw [hd]
  rfl

theorem img_key_none_of_head {l : String} {c : Char} {t : List Char}
    (hd : l.data = c :: t) (hc : (('[' : Char) == c) = false) :
    img_label_key l = none := by
  unfold img_label_key
  have him : pyStartsWith "[[IMG:" l = false := by
    unfold pyStartsWith
    have e1 : ("[[IMG:" : String).data = ['[', '[', 'I', 'M', 'G', ':'] := rfl
    rw [e1, hd]
    exact begins_with_head_ne hc
  rw [him]
  rfl

/-- C3: for every level-1 heading line handled by the layout loop (run with
the real table renderer), a PageBreak is appended immediately before the
heading's non-splittable group exactly when the story already holds more
than 5 elements at that point (any table pending in the buffer having just
been flushed); with 5 or fewer elements no break is emitted. -/
theorem c3_h1_page_break :
    ∀ (imgs : List (String × ImgInfo)) (st : LayoutState) (raw : String),
      pyStartsWith "# " (pyStrip raw) = true →
      process_line tblReal imgs st raw =
        Except.ok { story := (if (flush_pure st).story.length > 5
                              then (flush_pure st).story ++ [LayoutUnit.pageBreak]
                              else (flush_pure st).story) ++
                             [LayoutUnit.headingGroup (h1_text (pyStrip raw))],
                    table_buffer := (flush_pure st).table_buffer,
                    in_table := (flush_pure st).in_table } := by
  intro imgs st raw hh
  rcases data_of_h1 hh with ⟨t, hd⟩
  rw [process_line_real_normal imgs st raw (not_pipe_of_head hd (by decide))
    (not_empty_of_head hd)]
  unfold process_normal
  simp only [img_key_none_of_head hd (by decide), hh]
  by_cases hlen : (flush_pure st).story.length > 5
  · rw [if_pos hlen, if_pos hlen]
    simp
  · rw [if_neg hlen, if_neg hlen]
    simp

theorem c3_h1_page_break_witness :
    process_line tblReal []
      { story := List.replicate 6 LayoutUnit.spacer, table_buffer := [], in_table := false }
      "# Next" =
      Except.ok { story := List.replicate 6 LayoutUnit.spacer ++
                    [LayoutUnit.pageBreak, LayoutUnit.headingGroup "Next"],
                  table_buffer := [], in_table := false } ∧
    process_line tblReal []
      { story := List.replicate 3 LayoutUnit.spacer, table_buffer := [], in_table := false }
      "# First" =
      Except.ok { story := List.replicate 3 LayoutUnit.spacer ++
                    [LayoutUnit.headingGroup "First"],
                  table_buffer := [], in_table := false } := by
  constructor
  · rw [c3_h1_page_break []
      { story := List.replicate 6 LayoutUnit.spacer, table_buffer := [], in_table := false }
      "# Next" (by decide)]
    decide
  · rw [c3_h1_page_break []
      { story := List.replicate 3 LayoutUnit.spacer, table_buffer := [], in_table := false }
      "# First" (by decide)]
    decide

/-- C5 counterexample: the line with trailing prose after the image tag is
still classified as an image reference (re.match only anchors the pattern at
the start of the line), so with a matching record the layout emits an image
unit for it instead of a paragraph. -/
theorem c5_counterexample :
    img_label_key "[[IMG: fig1]] and more prose" = some "fig1" ∧
    process_line tblReal [("fig1", { width := 100, height := 50, caption := "cap", load_ok := true })]
      { story := [], table_buffer := [], in_table := false }
      "[[IMG: fig1]] and more prose" =
      Except.ok { story := [LayoutUnit.imageUnit "fig1"
                    (scale_image 100 50 available_width (10 * cm))],
                  table_buffer := [], in_table := false } := by
  constructor
  · decide
  · rw [process_line_real_normal _ _ _ (by decide) (by decide)]
    unfold process_normal
    simp only [show img_label_key (pyStrip "[[IMG: fig1]] and more prose") = some "fig1"
      from by decide]
    rfl

/-- C5 (amended): a line is classified as an image reference iff its trimmed
form STARTS with the open-bracket IMG pattern and a double closing bracket
occurs later in it; prose before the tag prevents the match, prose after the
closing brackets does not (it is ignored). -/
theorem c5_img_tag_rule :
    (∀ s : String, pyStartsWith "[[IMG:" s = false → img_label_key s = none) ∧
    img_label_key "[[IMG: fig1]]" = some "fig1" ∧
    img_label_key "[[IMG: fig1]] trailing prose" = some "fig1" ∧
    img_label_key "see [[IMG: fig1]]" = none ∧
    img_label_key "[[IMG: unclosed" = none := by
  refine ⟨?_, by decide, by decide, by decide, by decide⟩
  intro s hs
  unfold img_label_key
  rw [hs]
  rfl

theorem c5_img_tag_rule_witness :
    img_label_key "plain paragraph text" = none := by
  exact c5_img_tag_rule.1 "plain paragraph text" (by decide)

/-- C6: an image-reference line whose trimmed label has no entry in the
image map leaves the layout state exactly as it was (after any pending table
flush) and produces no error; with no table pending the state is unchanged. -/
theorem c6_missing_label_skipped :
    ∀ (imgs : List (String × ImgInfo)) (st : LayoutState) (raw : String) (key : String),
      img_label_key (pyStrip raw) = some key →
      List.lookup key imgs = none →
      process_line tblReal imgs st raw = Except.ok (flush_pure st) ∧
      (st.in_table = false → process_line tblReal imgs st raw = Except.ok st) := by
  intro imgs st raw key hk hl
  have hpre : pyStartsWith "[[IMG:" (pyStrip raw) = true := by
    cases hb : pyStartsWith "[[IMG:" (pyStrip raw) with
    | false =>
      unfold img_label_key at hk
      rw [hb] at hk
      cases hk
    | true => rfl
  rcases data_of_img hpre with ⟨t, hd⟩
  have hmain : process_line tblReal imgs st raw = Except.ok (flush_pure st) := by
    rw [process_line_real_normal imgs st raw (not_pipe_of_head hd (by decide))
      (not_empty_of_head hd)]
    unfold process_normal
    simp only [hk, hl]
  refine ⟨hmain, fun hfalse => ?_⟩
  rw [hmain, flush_pure_not_in_table hfalse]

theorem c6_missing_label_skipped_witness :
    process_line tblReal []
      { story := [], table_buffer := [], in_table := false } "[[IMG: figure-9]]" =
      Except.ok { story := [], table_buffer := [], in_table := false } := by
  exact (c6_missing_label_skipped []
    { story := [], table_buffer := [], in_table := false } "[[IMG: figure-9]]" "figure-9"
    (by decide) rfl).2 rfl

/-- C7: for an image wider than the available width (all quantities
positive), the width-first scaling with height re-check yields a display
width at most the available width, a display height at most the maximum
height, and preserves the aspect ratio exactly. -/
theorem c7_image_scaling :
    ∀ (w h mw mh : ℚ), 0 < w → 0 < h → 0 < mw → 0 < mh → mw < w →
      (scale_image w h mw mh).w ≤ mw ∧ (scale_image w h mw mh).h ≤ mh ∧
      (scale_image w h mw mh).h * w = (scale_image w h mw mh).w * h := by
  intro w h mw mh hw hh hmw hmh hlt
  have hw0 : w ≠ 0 := ne_of_gt hw
  have hh0 : h ≠ 0 := ne_of_gt hh
  have haspect : 0 < h / w := div_pos hh hw
  unfold scale_image
  rw [if_pos (show w > mw from hlt)]
  by_cases hcase : mw * (h / w) > mh
  · rw [if_pos hcase]
    refine ⟨?_, le_refl mh, ?_⟩
    · show mh / (h / w) ≤ mw
      rw [div_le_iff₀ haspect]
      exact le_of_lt hcase
    · show mh * w = mh / (h / w) * h
      field_simp
  · rw [if_neg hcase]
    refine ⟨le_refl mw, ?_, ?_⟩
    · exact le_of_not_lt hcase
    · show mw * (h / w) * w = mw * h
      field_simp

theorem c7_image_scaling_witness :
    (0 : ℚ) < 1000 ∧ (0 : ℚ) < 800 ∧ (0 : ℚ) < 500 ∧ (0 : ℚ) < 280 ∧ (500 : ℚ) < 1000 ∧
    (scale_image 1000 800 500 280).w ≤ 500 ∧ (scale_image 1000 800 500 280).h ≤ 280 ∧
    (scale_image 1000 800 500 280).h * 1000 = (scale_image 1000 800 500 280).w * 800 := by
  refine ⟨by norm_num, by norm_num, by norm_num, by norm_num, by norm_num, ?_, ?_, ?_⟩
  · exact (c7_image_scaling 1000 800 500 280 (by norm_num) (by norm_num) (by norm_num)
      (by norm_num) (by norm_num)).1
  · exact (c7_image_scaling 1000 800 500 280 (by norm_num) (by norm_num) (by norm_num)
      (by norm_num) (by norm_num)).2.1
  · exact (c7_image_scaling 1000 800 500 280 (by norm_num) (by norm_num) (by norm_num)
      (by norm_num) (by norm_num)).2.2

/-- A table renderer that throws, modelling create_paragraph_table raising
(e.g. reportlab rejecting a malformed cell). -/
def tbl_fail : TableRenderer :=
  fun _ => Except.error "table render failure"

/-- C8 counterexample: when table finalization throws, the layout loop does
not catch it — the whole run becomes an error (the following line is never
laid out), and only main's per-document handler receives it, leaving the
source unmoved; the table unit is not merely skipped with the build
continuing. -/
theorem c8_counterexample :
    process_lines tbl_fail []
      { story := [], table_buffer := [], in_table := false } ["| a |", "after"] =
      Except.error "table render failure" ∧
    main_process_file tbl_fail (fun _ => Except.ok ()) [] "doc" ["| a |", "after"] =
      { source_moved := false, exception_caught := true } := by
  exact ⟨rfl, rfl⟩

/-- C8 (amended): an error raised by table finalization propagates out of
the line loop uncaught (aborting that document's build, whose source main
then leaves in place); it is not caught, logged and skipped at the unit
level. -/
theorem c8_table_error_propagates :
    ∀ (tbl : TableRenderer) (e : String) (imgs : List (String × ImgInfo))
      (st : LayoutState) (raw : String),
      st.in_table = true →
      pyStartsWith "|" (pyStrip raw) = false →
      tbl st.table_buffer = Except.error e →
      process_line tbl imgs st raw = Except.error e := by
  intro tbl e imgs st raw hin hpipe herr
  unfold process_line
  simp only [hpipe, Bool.false_eq_true, if_false]
  unfold flush_table
  rw [if_pos hin, herr]

theorem c8_table_error_propagates_witness :
    process_line tbl_fail []
      { story := [], table_buffer := ["| a |"], in_table := true } "after" =
      Except.error "table render failure" := by
  exact c8_table_error_propagates tbl_fail "table render failure" []
    { story := [], table_buffer := ["| a |"], in_table := true } "after"
    rfl (by decide) rfl

/-- C9: when final serialization fails, save_to_pdf reports False and main
does not move the source document to the processed directory; the source is
moved exactly when serialization succeeds. -/
theorem c9_build_failure_keeps_source :
    ∀ (tbl : TableRenderer) (buildFn : List LayoutUnit → Except String Unit)
      (imgs : List (String × ImgInfo)) (stem : String) (lines : List String)
      (story : List LayoutUnit),
      save_story tbl imgs stem lines = Except.ok story →
      (∀ e : String, buildFn story = Except.error e →
        save_to_pdf tbl buildFn imgs stem lines = Except.ok false ∧
        main_process_file tbl buildFn imgs stem lines =
          { source_moved := false, exception_caught := false }) ∧
      (buildFn story = Except.ok () →
        save_to_pdf tbl buildFn imgs stem lines = Except.ok true ∧
        main_process_file tbl buildFn imgs stem lines =
          { source_moved := true, exception_caught := false }) := by
  intro tbl buildFn imgs stem lines story hs
  constructor
  · intro e he
    have hsave : save_to_pdf tbl buildFn imgs stem lines = Except.ok false := by
      unfold save_to_pdf
      simp only [hs, he]
    refine ⟨hsave, ?_⟩
    unfold main_process_file
    rw [hsave]
  · intro hok
    have hsave : save_to_pdf tbl buildFn imgs stem lines = Except.ok true := by
      unfold save_to_pdf
      simp only [hs, hok]
    refine ⟨hsave, ?_⟩
    unfold main_process_file
    rw [hsave]

theorem c9_build_failure_keeps_source_witness :
    save_to_pdf tblReal (fun _ => Except.error "disk full") [] "report" [] =
      Except.ok false ∧
    main_process_file tblReal (fun _ => Except.error "disk full") [] "report" [] =
      { source_moved := false, exception_caught := false } := by
  exact (c9_build_failure_keeps_source tblReal (fun _ => Except.error "disk full") [] "report" []
    (initial_story "report") rfl).1 "disk full" rfl

end TsAI
